import Mathlib

/-!
Shallow embedding of the Zoho Mail360 bulk-mail dispatcher
(`src/server/routes.ts`, `src/server/storage.ts`, `src/storage.ts`, and the
client-side progressive sender in `src/unnamed/part_003`).

External effects (the credential file read, the OAuth token endpoint, the
mailbox-list fetch, the message-send POST, wall-clock time) are passed in as
explicit environment values; the process-wide mutable token cache and the
in-memory result store are threaded as explicit state.
-/

/-- An entry of `accounts.json`, as consumed by `routes.ts`
(`@shared/schema` `EmailAccount`). -/
structure EmailAccount where
  name : String
  account_key : String
  client_id : String
  client_secret : String
  refresh_token : String
deriving DecidableEq, Repr

/-- A cached bearer token, the value type of the global `tokenCache` in
`routes.ts` line 13. Times are milliseconds since epoch (`Date.now()`). -/
structure CachedToken where
  access_token : String
  expires_at : Int
deriving DecidableEq, Repr

/-- The global `tokenCache : Record<string, {access_token, expires_at}>`,
modelled as an association list keyed by account name; lookup takes the
first matching entry. -/
abbrev TokenCache := List (String × CachedToken)

/-- Reading `tokenCache[accountId]`. -/
def cacheLookup (c : TokenCache) (k : String) : Option CachedToken :=
  (c.find? (fun p => p.1 == k)).map (fun p => p.2)

/-- The assignment `tokenCache[accountId] = v`: JS object-property update,
which overwrites any previous binding of the key and leaves every other key
untouched. -/
def cacheInsert (c : TokenCache) (k : String) (v : CachedToken) : TokenCache :=
  (k, v) :: c.filter (fun p => p.1 != k)

/-- The outcome of the OAuth refresh exchange performed by
`getNewAccessToken` (`routes.ts` lines 16-38): either the provider's
`{access_token, expires_in}` payload, or a failure (network error, non-2xx,
malformed body), which that helper converts into a thrown
`'Failed to authenticate with Zoho.'` error. -/
inductive AcqOutcome where
  | ok (access_token : String) (expires_in : Int)
  | err
deriving DecidableEq, Repr

/-- The observable effect of one `getZohoAccessToken` call: the token cache
after the call, whether a network token exchange was performed, and the
thrown error message if the call threw. -/
structure TokenStep where
  cache : TokenCache
  exchanged : Bool
  error : Option String
deriving DecidableEq, Repr

/-- `getZohoAccessToken` (`routes.ts` lines 41-59).  Checks
`tokenCache[account.name]`; if the entry is absent or
`currentTime >= expires_at`, performs the refresh exchange and on success
stores `{access_token, expires_at = currentTime + expires_in*1000 - 60000}`;
on failure rethrows `'Failed to authenticate with Zoho.'`, leaving the cache
as it was.  Otherwise the cached entry is used and no exchange happens. -/
def getZohoAccessToken (acq : AcqOutcome) (now : Int) (account : EmailAccount)
    (cache : TokenCache) : TokenStep :=
  let refresh : TokenStep :=
    match acq with
    | .ok tok ei =>
        ⟨cacheInsert cache account.name ⟨tok, now + ei * 1000 - 60000⟩, true, none⟩
    | .err => ⟨cache, true, some "Failed to authenticate with Zoho."⟩
  match cacheLookup cache account.name with
  | none => refresh
  | some t => if t.expires_at ≤ now then refresh else ⟨cache, false, none⟩

/-- One mailbox descriptor from the provider's account-list response
(`subAccountsResponse.data` entries in `routes.ts` lines 89-94). -/
structure SubAccount where
  emailAddress : String
  account_key : String
deriving DecidableEq, Repr

/-- An upstream JSON error body (`error.response.data`).  `statusField` is
the body's optional numeric `status` field, read by the handlers as
`error?.status`; `payload` stands for the rest of the body. -/
structure UpBody where
  statusField : Option Int
  payload : String
deriving DecidableEq, Repr

/-- A successful message-send response body (`response.data`), with the
message identifier at its known nested path (`data.messageId`). -/
structure MsgResponse where
  messageId : String
  payload : String
deriving DecidableEq, Repr

/-- Outcome of one outbound HTTP request: success payload, an HTTP error
carrying a response body (`error.response` present), or a transport error
carrying only a message. -/
inductive FetchOutcome (α : Type) where
  | ok (data : α)
  | errResp (body : UpBody)
  | errNet (msg : String)
deriving DecidableEq, Repr

/-- The value stored by `catch (error) { ... error.response ?
error.response.data : error.message }`: either an upstream body or a local
error message. -/
inductive SendErrVal where
  | body (b : UpBody)
  | msg (s : String)
deriving DecidableEq, Repr

/-- The tagged value `sendEmail` returns: `{success:true, data}` or
`{success:false, error}`. -/
inductive SendRes where
  | success (data : MsgResponse)
  | failure (e : SendErrVal)
deriving DecidableEq, Repr

/-- The external world as seen by one `sendEmail` call: the accounts file
contents, the token-endpoint outcome, the mailbox-list fetch outcome, the
message-send POST outcome, and the current time. -/
structure SendEnv where
  accounts : List EmailAccount
  acqOutcome : AcqOutcome
  subAccountsFetch : FetchOutcome (List SubAccount)
  sendPost : FetchOutcome MsgResponse
  now : Int
deriving Repr

/-- `/^[^\s@]+@[^\s@]+\.[^\s@]+$/` on a character list: no whitespace
anywhere, exactly one `@` (the class excludes `@`), a non-empty local part,
and a `.` in the domain part with at least one character on each side. -/
def splitChar (sep : Char) : List Char → List (List Char)
  | [] => [[]]
  | c :: cs =>
    match splitChar sep cs with
    | [] => [[]]
    | p :: ps => if c == sep then [] :: p :: ps else (c :: p) :: ps

/-- The email-shape test `/^[^\s@]+@[^\s@]+\.[^\s@]+$/.test fromAddress`
(`routes.ts` line 100). -/
def emailShapeTest (s : String) : Bool :=
  match splitChar '@' s.toList with
  | [loc, dom] =>
    !loc.isEmpty && loc.all (fun c => !c.isWhitespace) &&
    !dom.isEmpty && dom.all (fun c => !c.isWhitespace) &&
    ((dom.drop 1).dropLast.contains '.')
  | _ => false

/-- The observable effect of one `sendEmail` call: its tagged result, the
token cache after the call, and whether the provider's message-send
endpoint was actually POSTed to. -/
structure SendStep where
  res : SendRes
  cache : TokenCache
  sendCalled : Bool
deriving Repr

/-- `sendEmail` (`routes.ts` lines 79-119).  The whole body sits in a
`try/catch`; every throw (invalid account, auth failure, list-fetch
failure, unresolved from-address, malformed from-address, send failure) is
converted by the catch into `{success:false, error}`, so the function
itself never throws.  `getZohoSubAccounts` (lines 62-76) is inlined: it
ensures a token and performs the mailbox-list GET. -/
def sendEmail (env : SendEnv) (primaryAccountKey fromAddress : String)
    (cache : TokenCache) : SendStep :=
  match env.accounts.find? (fun a => a.account_key == primaryAccountKey) with
  | none => ⟨.failure (.msg "Invalid primary account selected."), cache, false⟩
  | some sel =>
    let ts1 := getZohoAccessToken env.acqOutcome env.now sel cache
    match ts1.error with
    | some m => ⟨.failure (.msg m), ts1.cache, false⟩
    | none =>
      match env.subAccountsFetch with
      | .errResp b => ⟨.failure (.body b), ts1.cache, false⟩
      | .errNet m => ⟨.failure (.msg m), ts1.cache, false⟩
      | .ok subs =>
        match subs.find? (fun s => s.emailAddress == fromAddress) with
        | none =>
          ⟨.failure (.msg "From address not found in Zoho sub-accounts."),
            ts1.cache, false⟩
        | some _sub =>
          let ts2 := getZohoAccessToken env.acqOutcome env.now sel ts1.cache
          match ts2.error with
          | some m => ⟨.failure (.msg m), ts2.cache, false⟩
          | none =>
            if emailShapeTest fromAddress then
              match env.sendPost with
              | .ok d => ⟨.success d, ts2.cache, true⟩
              | .errResp b => ⟨.failure (.body b), ts2.cache, true⟩
              | .errNet m => ⟨.failure (.msg m), ts2.cache, true⟩
            else
              ⟨.failure (.msg "Invalid fromAddress format."), ts2.cache, false⟩

/-- `fullResponse` of a bulk `EmailResult`: `result.data` on success,
`result.error` on failure. -/
inductive FullResp where
  | data (d : MsgResponse)
  | err (e : SendErrVal)
deriving DecidableEq, Repr

/-- JS `x || 500` applied to `result.error?.status`: `undefined` (field
absent or the error is a plain message) and the falsy number `0` both fall
back to `500`. -/
def jsStatusOr500 : Option Int → Int
  | some s => if s = 0 then 500 else s
  | none => 500

/-- `error?.status` on the stored error value: only an upstream body can
carry a `status` field. -/
def errStatus : SendErrVal → Option Int
  | .body b => b.statusField
  | .msg _ => none

/-- One per-recipient record of the bulk handler (`@shared/schema`
`EmailResult`), as pushed in `routes.ts` lines 203-210. -/
structure EmailResult where
  recipient : String
  status : String
  messageId : Option String
  responseCode : Int
  error : Option SendErrVal
  fullResponse : FullResp
deriving DecidableEq, Repr

/-- The record pushed for one recipient (`routes.ts` lines 203-210):
`status` from the tag, `messageId` from the nested path on success,
`responseCode = 200` on success and `error?.status || 500` on failure,
`error`/`fullResponse` retaining the full upstream payload. -/
def mkEmailResult (recipient : String) (r : SendRes) : EmailResult :=
  match r with
  | .success d => ⟨recipient, "Success", some d.messageId, 200, none, .data d⟩
  | .failure e =>
      ⟨recipient, "Failed", none, jsStatusOr500 (errStatus e), some e, .err e⟩

/-- JS `String.prototype.trim`: strip leading and trailing whitespace. -/
def trimChars (cs : List Char) : List Char :=
  ((cs.dropWhile Char.isWhitespace).reverse.dropWhile Char.isWhitespace).reverse

/-- `recipients.split('\n').map(email => email.trim()).filter(email => email)`
(`routes.ts` line 192 and `part_003` line 339), at the character level:
split on the newline character, trim each line, keep the truthy
(non-empty) ones. -/
def recipientList (blob : String) : List String :=
  ((splitChar '\n' blob.toList).map (fun l => String.mk (trimChars l))).filter
    (fun e => e != "")

/-- The `for (const toAddress of recipientList)` loop of the bulk handler
(`routes.ts` lines 195-211): one `sendEmail` call per recipient in order,
threading the global token cache, pushing one result per recipient.
`envs i` is the external world seen by the i-th call. -/
def bulkLoop (envs : Nat → SendEnv) (key fromAddr : String) :
    List String → Nat → TokenCache → List EmailResult × TokenCache
  | [], _, c => ([], c)
  | r :: rest, i, c =>
    let step := sendEmail (envs i) key fromAddr c
    let t := bulkLoop envs key fromAddr rest (i + 1) step.cache
    (mkEmailResult r step.res :: t.1, t.2)

/-- The `POST /api/send-bulk-email` handler body (`routes.ts` lines
180-219): select the account by key (else 400), ensure a token (a throw is
caught by the outer catch, 500), then run the per-recipient loop and answer
with the full result list.  `accounts0`, `acq0`, `now0` are the handler's
own accounts read, token-exchange outcome and clock. -/
def sendBulkHandler (accounts0 : List EmailAccount) (acq0 : AcqOutcome)
    (now0 : Int) (envs : Nat → SendEnv) (key fromAddr blob : String)
    (cache : TokenCache) : Except String (List EmailResult × TokenCache) :=
  match accounts0.find? (fun a => a.account_key == key) with
  | none => .error "Invalid account selected."
  | some sel =>
    let ts := getZohoAccessToken acq0 now0 sel cache
    match ts.error with
    | some m => .error m
    | none => .ok (bulkLoop envs key fromAddr (recipientList blob) 0 ts.cache)

/-- The client-side progressive loop body (`part_003` lines 342-389).
`isEnded` and `isPaused` there are React `useState` consts (lines 196-197)
captured by the async closure when the run starts; `setIsEnded(true)` /
`setIsPaused(true)` during the run rebind fresh consts for the next render
and are never seen by the already-running loop.  So the `if (isEnded)
break` check reads the same captured Boolean `isEnded` at every iteration,
and the `while (isPaused && !isEnded)` poll likewise never engages unless
the captured `isPaused` was already true at run start (in which case, with
captured `isEnded` false, the loop would never terminate — that divergent
capture is outside this model).  Before dispatching index `i` the captured
flag is checked; the i-th recipient's result record (abstracted as
`result i`, paired with its recipient) is appended otherwise. -/
def progLoop {α : Type} (result : Nat → α) (isEnded : Bool) :
    Nat → List String → List (String × α)
  | _, [] => []
  | i, r :: rest =>
    if isEnded then [] else (r, result i) :: progLoop result isEnded (i + 1) rest

/-- `sendEmailsProgressively` (`part_003` lines 331-405), restricted to the
result batch it accumulates: split the blob, run the loop from index 0 with
the cancel flag the closure captured at run start. -/
def sendEmailsProgressively {α : Type} (result : Nat → α) (isEnded : Bool)
    (blob : String) : List (String × α) :=
  progLoop result isEnded 0 (recipientList blob)

/-- The `emailResults : Map<string, EmailResult[]>` of `MemStorage`
(`src/storage.ts` / `src/server/storage.ts`), as an insertion-ordered list
of (sessionId, batch) entries. -/
abbrev ResultStore := List (String × List EmailResult)

/-- JS `Map.prototype.set`: updating an existing key keeps its insertion
position; a new key is appended at the end. -/
def mapSet (st : ResultStore) (k : String) (v : List EmailResult) : ResultStore :=
  if st.any (fun p => p.1 == k) then
    st.map (fun p => if p.1 == k then (k, v) else p)
  else
    st ++ [(k, v)]

/-- `storeEmailResults(results)` (`storage.ts` lines 113-116): generates a
fresh session id (passed in here as `sid`) and `set`s the batch under it. -/
def storeEmailResults (st : ResultStore) (sid : String)
    (results : List EmailResult) : ResultStore :=
  mapSet st sid results

/-- `getEmailResults(sessionId?)` (`storage.ts` lines 118-124): with a
session id, that session's batch (or `[]`); without, the last-inserted
entry's batch (or `[]`). -/
def getEmailResults (st : ResultStore) (sid : Option String) : List EmailResult :=
  match sid with
  | some s => ((st.find? (fun p => p.1 == s)).map (fun p => p.2)).getD []
  | none =>
    match st.getLast? with
    | some e => e.2
    | none => []

/-- `find?` by key is unaffected by filtering out entries with a different key. -/
theorem find?_filter_key_ne (c : TokenCache) (n k : String) (h : k ≠ n) :
    (c.filter (fun p => p.1 != n)).find? (fun p => p.1 == k) =
      c.find? (fun p => p.1 == k) := by
  induction c with
  | nil => rfl
  | cons hd tl ih =>
    cases hbk : (hd.1 == k) with
    | true =>
      have hd1 : hd.1 = k := by simpa using hbk
      have hn : (hd.1 != n) = true := by
        simpa [hd1] using h
      simp only [List.filter_cons, hn, if_true, List.find?_cons, hbk]
    | false =>
      cases hbn : (hd.1 != n) with
      | true =>
        simp only [List.filter_cons, hbn, if_true, List.find?_cons, hbk, ih]
      | false =>
        simp only [List.filter_cons, hbn, Bool.false_eq_true, if_false,
          List.find?_cons, hbk, ih]

/-- Inserting under one key leaves lookups of every other key unchanged. -/
theorem cacheLookup_insert_ne (c : TokenCache) (n k : String) (v : CachedToken)
    (h : k ≠ n) : cacheLookup (cacheInsert c n v) k = cacheLookup c k := by
  have hnk : (n == k) = false := by simpa using Ne.symm h
  simp [cacheLookup, cacheInsert, List.find?_cons, hnk, find?_filter_key_ne c n k h]


/-- A concrete account used by witness theorems. -/
def acctA : EmailAccount := ⟨"A", "k1", "ci", "cs", "rt"⟩

/-- C2: `getZohoAccessToken` performs a token acquisition exactly when the
cache entry for `account.name` is absent or `now >= expires_at`; on
successful acquisition it stores `{access_token,
expires_at = now + expires_in*1000 - 60000}`; and while the cached entry is
unexpired a call performs no network exchange and leaves the cache
unchanged, so a second call right after a successful first one exchanges
nothing. -/
theorem claim_C2_token_cache_spec (acq : AcqOutcome) (now : Int)
    (a : EmailAccount) (cache : TokenCache) :
    ((getZohoAccessToken acq now a cache).exchanged = true ↔
      cacheLookup cache a.name = none ∨
        ∃ t, cacheLookup cache a.name = some t ∧ t.expires_at ≤ now)
    ∧ (∀ tok ei, acq = AcqOutcome.ok tok ei →
        (getZohoAccessToken acq now a cache).exchanged = true →
        getZohoAccessToken acq now a cache =
          ⟨cacheInsert cache a.name ⟨tok, now + ei * 1000 - 60000⟩, true, none⟩)
    ∧ (∀ t, cacheLookup cache a.name = some t → now < t.expires_at →
        getZohoAccessToken acq now a cache = ⟨cache, false, none⟩) := by
  unfold getZohoAccessToken
  cases h : cacheLookup cache a.name with
  | none => cases acq <;> simp
  | some t =>
    by_cases ht : t.expires_at ≤ now
    · cases acq <;> simp [ht]
    · cases acq <;> simp [ht]

/-- Witness for C2: with a cached entry expiring at 100 and the clock at 50,
a call performs no exchange and leaves the cache as it is. -/
theorem claim_C2_witness :
    getZohoAccessToken AcqOutcome.err 50 acctA [("A", ⟨"tok", 100⟩)] =
      ⟨[("A", ⟨"tok", 100⟩)], false, none⟩ :=
  (claim_C2_token_cache_spec AcqOutcome.err 50 acctA
      [("A", ⟨"tok", 100⟩)]).2.2 ⟨"tok", 100⟩ (by decide) (by decide)

/-- C9: if the token acquisition fails during a `getZohoAccessToken` call
that attempted a refresh, the call raises
`'Failed to authenticate with Zoho.'` and the token cache is exactly what it
was before the call — an existing (even stale) entry is neither modified nor
evicted. -/
theorem claim_C9_token_failure_preserves_cache (acq : AcqOutcome) (now : Int)
    (a : EmailAccount) (cache : TokenCache)
    (hfail : acq = AcqOutcome.err)
    (hatt : (getZohoAccessToken acq now a cache).exchanged = true) :
    (getZohoAccessToken acq now a cache).error =
      some "Failed to authenticate with Zoho." ∧
    (getZohoAccessToken acq now a cache).cache = cache := by
  subst hfail
  unfold getZohoAccessToken at hatt ⊢
  cases h : cacheLookup cache a.name with
  | none => simp
  | some t =>
    rw [h] at hatt
    by_cases ht : t.expires_at ≤ now
    · simp [ht]
    · simp [ht] at hatt

/-- Witness for C9: a failed refresh over a stale entry throws and leaves
the stale entry in place. -/
theorem claim_C9_witness :
    (getZohoAccessToken AcqOutcome.err 10 acctA [("A", ⟨"old", 5⟩)]).error =
        some "Failed to authenticate with Zoho." ∧
      (getZohoAccessToken AcqOutcome.err 10 acctA [("A", ⟨"old", 5⟩)]).cache =
        [("A", ⟨"old", 5⟩)] :=
  claim_C9_token_failure_preserves_cache AcqOutcome.err 10 acctA
    [("A", ⟨"old", 5⟩)] rfl (by decide)

/-- The cache after a `getZohoAccessToken` call is either unchanged or an
overwrite of the entry keyed by the account's own name. -/
theorem getZohoAccessToken_cache_cases (acq : AcqOutcome) (now : Int)
    (a : EmailAccount) (cache : TokenCache) :
    (getZohoAccessToken acq now a cache).cache = cache ∨
      ∃ v, (getZohoAccessToken acq now a cache).cache =
        cacheInsert cache a.name v := by
  unfold getZohoAccessToken
  cases h : cacheLookup cache a.name with
  | none =>
    cases acq with
    | ok tok ei => exact Or.inr ⟨_, rfl⟩
    | err => exact Or.inl rfl
  | some t =>
    by_cases ht : t.expires_at ≤ now
    · cases acq with
      | ok tok ei =>
        refine Or.inr ⟨⟨tok, now + ei * 1000 - 60000⟩, ?_⟩
        simp [ht]
      | err =>
        refine Or.inl ?_
        simp [ht]
    · refine Or.inl ?_
      simp [ht]

/-- C10: a `getZohoAccessToken` call touches at most the cache entry keyed
by the account's own name: every entry under a different name reads the
same before and after, whether the refresh succeeded, was skipped, or
failed. -/
theorem claim_C10_token_frame (acq : AcqOutcome) (now : Int)
    (a : EmailAccount) (cache : TokenCache) (k : String) (hk : k ≠ a.name) :
    cacheLookup (getZohoAccessToken acq now a cache).cache k =
      cacheLookup cache k := by
  rcases getZohoAccessToken_cache_cases acq now a cache with h | ⟨v, h⟩
  · rw [h]
  · rw [h, cacheLookup_insert_ne cache a.name k v hk]

/-- Witness for C10: refreshing account "A" leaves the entry for "B"
unchanged. -/
theorem claim_C10_witness :
    cacheLookup
        (getZohoAccessToken (AcqOutcome.ok "t2" 3600) 0 acctA
          [("B", ⟨"tb", 99⟩)]).cache "B" =
      cacheLookup [("B", ⟨"tb", 99⟩)] "B" :=
  claim_C10_token_frame (AcqOutcome.ok "t2" 3600) 0 acctA
    [("B", ⟨"tb", 99⟩)] "B" (by decide)

/-- An environment in which every external interaction fails; used by
witnesses. -/
def envFail : SendEnv := ⟨[], .err, .errNet "x", .errNet "x", 0⟩

/-- An environment in which everything up to the validation step succeeds
and the provider's sub-account list contains the (malformed) address
"not-an-email". -/
def envNoEmail : SendEnv :=
  ⟨[acctA], .ok "tok" 3600, .ok [⟨"not-an-email", "sk"⟩], .ok ⟨"mid", "p"⟩, 0⟩

/-- The `Failed` record the bulk handler builds when the account key is
unknown; used by witnesses. -/
def failResult (r : String) : EmailResult :=
  ⟨r, "Failed", none, 500, some (.msg "Invalid primary account selected."),
    .err (.msg "Invalid primary account selected.")⟩

/-- `mkEmailResult` always records the recipient it was given. -/
theorem mkEmailResult_recipient (r : String) (s : SendRes) :
    (mkEmailResult r s).recipient = r := by
  cases s <;> rfl

/-- The bulk loop emits one result per recipient, in order, each recording
its recipient. -/
theorem bulkLoop_map_recipient (envs : Nat → SendEnv) (key fa : String) :
    ∀ (rl : List String) (i : Nat) (c : TokenCache),
      (bulkLoop envs key fa rl i c).1.map (fun r => r.recipient) = rl := by
  intro rl
  induction rl with
  | nil => intro i c; rfl
  | cons r rest ih =>
    intro i c
    simp [bulkLoop, mkEmailResult_recipient, ih]

/-- C3: the Send Executor is total — every outcome, whatever failed inside,
is returned as a tagged success/failure value — and consequently the bulk
loop attempts every recipient: its result list always has one entry per
recipient, regardless of the per-call environments. -/
theorem claim_C3_executor_never_throws :
    (∀ (env : SendEnv) (key fa : String) (cache : TokenCache),
      (∃ d, (sendEmail env key fa cache).res = SendRes.success d) ∨
        ∃ e, (sendEmail env key fa cache).res = SendRes.failure e)
    ∧ ∀ (envs : Nat → SendEnv) (key fa : String) (rl : List String) (i : Nat)
        (cache : TokenCache),
        (bulkLoop envs key fa rl i cache).1.length = rl.length := by
  constructor
  · intro env key fa cache
    cases h : (sendEmail env key fa cache).res with
    | success d => exact Or.inl ⟨d, rfl⟩
    | failure e => exact Or.inr ⟨e, rfl⟩
  · intro envs key fa rl
    have h := bulkLoop_map_recipient envs key fa rl
    intro i cache
    have := congrArg List.length (h i cache)
    simpa using this

/-- C7: for every from-address failing the email-shape test, `sendEmail`
returns a Failed outcome and the provider's message-send endpoint is never
POSTed to (the rejection happens before that call; the mailbox-list fetch
earlier in the pipeline is a different endpoint and may still occur). -/
theorem claim_C7_malformed_from_rejected (env : SendEnv) (key fa : String)
    (cache : TokenCache) (h : emailShapeTest fa = false) :
    (sendEmail env key fa cache).sendCalled = false ∧
      ∃ e, (sendEmail env key fa cache).res = SendRes.failure e := by
  simp only [sendEmail]
  repeat' split
  all_goals simp_all

/-- Witness for C7: "not-an-email" is rejected without a send POST even in
an environment where every other step succeeds and the provider would have
accepted the message. -/
theorem claim_C7_witness :
    (sendEmail envNoEmail "k1" "not-an-email" []).sendCalled = false ∧
      ∃ e, (sendEmail envNoEmail "k1" "not-an-email" []).res =
        SendRes.failure e :=
  claim_C7_malformed_from_rejected envNoEmail "k1" "not-an-email" []
    (by decide)

/-- C1: whenever the bulk handler completes its loop, it answers with
exactly one result per attempted recipient, in submission order, each
result's `recipient` equal to the trimmed input line that produced it. -/
theorem claim_C1_one_result_per_recipient (accounts0 : List EmailAccount)
    (acq0 : AcqOutcome) (now0 : Int) (envs : Nat → SendEnv)
    (key fromAddr blob : String) (cache : TokenCache)
    (results : List EmailResult) (cache' : TokenCache)
    (hok : sendBulkHandler accounts0 acq0 now0 envs key fromAddr blob cache =
      Except.ok (results, cache'))
    (hne : recipientList blob ≠ []) :
    results.map (fun r => r.recipient) = recipientList blob := by
  simp only [sendBulkHandler] at hok
  split at hok
  · simp at hok
  · split at hok
    · simp at hok
    · injection hok with h
      have h1 := congrArg Prod.fst h
      simp only at h1
      rw [← h1]
      exact bulkLoop_map_recipient envs key fromAddr _ 0 _

/-- Witness for C1: a two-line blob yields exactly the two trimmed
recipients, in order. -/
theorem claim_C1_witness :
    ([failResult "u1@x.com", failResult "u2@x.com"].map
        (fun r => r.recipient)) =
      recipientList "u1@x.com\nu2@x.com" :=
  claim_C1_one_result_per_recipient [acctA] (AcqOutcome.ok "tok" 3600) 0
    (fun _ => envFail) "k1" "a@x.com" "u1@x.com\nu2@x.com" []
    [failResult "u1@x.com", failResult "u2@x.com"]
    [("A", ⟨"tok", 3540000⟩)] rfl (by decide)

/-- C6: the recipients blob is split into non-empty trimmed lines with no
deduplication and no validity filtering — blanks are skipped, duplicates
and malformed lines each keep their own entry in input order — and an empty
blob yields an empty batch while the run still completes (the handler
answers `ok` with `[]`; the client loop produces `[]`). -/
theorem claim_C6_split_semantics :
    recipientList "u1@x.com\nu2@x.com\n\nu1@x.com" =
        ["u1@x.com", "u2@x.com", "u1@x.com"]
      ∧ recipientList "" = []
      ∧ sendBulkHandler [acctA] (AcqOutcome.ok "tok" 3600) 0
          (fun _ => envFail) "k1" "a@x.com" "" [] =
        Except.ok ([], [("A", ⟨"tok", 3540000⟩)])
      ∧ sendEmailsProgressively (fun _ => (0 : Nat)) false "" = [] := by
  exact ⟨rfl, rfl, rfl, rfl⟩

/-- With a false captured flag, the loop processes every recipient. -/
theorem progLoop_false_length {α : Type} (result : Nat → α) :
    ∀ (rl : List String) (i : Nat),
      (progLoop result false i rl).length = rl.length := by
  intro rl
  induction rl with
  | nil => intro i; rfl
  | cons r rest ih => intro i; simp [progLoop, ih]

/-- C4 fails on the code: the cancel flag the loop checks is the
closure-captured `useState` value fixed at run start, so a cancel signal
raised after k of n recipients have been dispatched is never observed.  The
run is all or nothing — with the captured flag false (its value when a run
starts) every recipient is processed; the batch is never a strict non-empty
prefix.  Concretely, in the claim's scenario with n = 2 and cancel raised
after k = 1, the run produces 2 results, not 1. -/
theorem claim_C4_stale_cancel_flag :
    (∀ {α : Type} (result : Nat → α) (isEnded : Bool) (blob : String),
      sendEmailsProgressively result isEnded blob = [] ∨
        (sendEmailsProgressively result isEnded blob).length =
          (recipientList blob).length)
    ∧ (sendEmailsProgressively (fun i => i) false
        "u1@x.com\nu2@x.com").length = 2
    ∧ (sendEmailsProgressively (fun i => i) false
          "u1@x.com\nu2@x.com").map Prod.fst =
        ["u1@x.com", "u2@x.com"] := by
  refine ⟨?_, rfl, rfl⟩
  intro α result isEnded blob
  cases isEnded with
  | true =>
    left
    simp only [sendEmailsProgressively]
    generalize recipientList blob = rl
    cases rl with
    | nil => rfl
    | cons r rest => rfl
  | false =>
    right
    exact progLoop_false_length result (recipientList blob) 0

/-- Either a `sendEmail` call never reached the send POST, or its tagged
result is exactly the normalization of the send POST's outcome. -/
theorem sendEmail_sendCalled_structure (env : SendEnv) (key fa : String)
    (cache : TokenCache) :
    (sendEmail env key fa cache).sendCalled = false ∨
      (sendEmail env key fa cache).res =
        (match env.sendPost with
         | .ok d => SendRes.success d
         | .errResp b => SendRes.failure (.body b)
         | .errNet m => SendRes.failure (.msg m)) := by
  simp only [sendEmail]
  repeat' split
  all_goals simp_all

/-- The concrete environment of the C8 counterexample: the pipeline reaches
the send POST, which fails with an HTTP error whose JSON body has
`status: 0`. -/
def envZero : SendEnv :=
  ⟨[acctA], .ok "tok" 3600, .ok [⟨"a@x.com", "sk"⟩], .errResp ⟨some 0, "p"⟩, 0⟩

/-- A concrete environment whose send POST fails with an HTTP error whose
JSON body has `status: 429`. -/
def env429 : SendEnv :=
  ⟨[acctA], .ok "tok" 3600, .ok [⟨"a@x.com", "sk"⟩], .errResp ⟨some 429, "p"⟩, 0⟩

/-- Counterexample for C8: as stated the claim says `responseCode` equals
the body's `status` field whenever it is present; but the handler computes
`error?.status || 500`, so the present-but-falsy value `status: 0` yields
`responseCode = 500`, not `0`. -/
theorem claim_C8_counterexample :
    envZero.sendPost = FetchOutcome.errResp ⟨some 0, "p"⟩
    ∧ (sendEmail envZero "k1" "a@x.com" []).sendCalled = true
    ∧ (mkEmailResult "u@x.com"
        (sendEmail envZero "k1" "a@x.com" []).res).responseCode = 500
    ∧ (mkEmailResult "u@x.com"
        (sendEmail envZero "k1" "a@x.com" []).res).responseCode ≠ 0 :=
  ⟨rfl, rfl, rfl, by decide⟩

/-- C8 (amended): when the send POST fails with an HTTP error carrying a
JSON body, the recipient's record has status `Failed`, `fullResponse`
equal to the complete upstream body, and `responseCode` equal to the body's
`status` field when present and non-zero — when it is absent or `0` (falsy
under the `|| 500` fallback), `500`; in particular body `{status:429}`
yields `responseCode = 429`. -/
theorem claim_C8_provider_error_result (env : SendEnv) (key fa rcpt : String)
    (cache : TokenCache) (b : UpBody)
    (hb : env.sendPost = FetchOutcome.errResp b)
    (hc : (sendEmail env key fa cache).sendCalled = true) :
    (mkEmailResult rcpt (sendEmail env key fa cache).res).status = "Failed"
    ∧ (mkEmailResult rcpt (sendEmail env key fa cache).res).responseCode =
        (match b.statusField with
         | some s => if s = 0 then 500 else s
         | none => 500)
    ∧ (mkEmailResult rcpt (sendEmail env key fa cache).res).fullResponse =
        FullResp.err (SendErrVal.body b)
    ∧ (b.statusField = some 429 →
        (mkEmailResult rcpt (sendEmail env key fa cache).res).responseCode =
          429) := by
  rcases sendEmail_sendCalled_structure env key fa cache with h | h
  · rw [h] at hc; cases hc
  · rw [hb] at h
    rw [h]
    refine ⟨rfl, ?_, rfl, ?_⟩
    · simp only [mkEmailResult, jsStatusOr500, errStatus]
    · intro h429
      simp [mkEmailResult, jsStatusOr500, errStatus, h429]

/-- Witness for C8: body `{status:429}` yields a Failed record with
`responseCode = 429` and the body as `fullResponse`. -/
theorem claim_C8_witness :
    (mkEmailResult "u@x.com"
        (sendEmail env429 "k1" "a@x.com" []).res).responseCode = 429
    ∧ (mkEmailResult "u@x.com"
        (sendEmail env429 "k1" "a@x.com" []).res).fullResponse =
      FullResp.err (SendErrVal.body ⟨some 429, "p"⟩) :=
  ⟨(claim_C8_provider_error_result env429 "k1" "a@x.com" "u@x.com" []
      ⟨some 429, "p"⟩ rfl rfl).2.2.2 rfl,
   (claim_C8_provider_error_result env429 "k1" "a@x.com" "u@x.com" []
      ⟨some 429, "p"⟩ rfl rfl).2.2.1⟩

/-- A concrete one-result batch used by the store claims. -/
def batchOne : List EmailResult :=
  [⟨"u1@x.com", "Success", some "m1", 200, none, .data ⟨"m1", "p1"⟩⟩]

/-- A second concrete one-result batch used by the store claims. -/
def batchTwo : List EmailResult :=
  [⟨"u2@x.com", "Success", some "m2", 200, none, .data ⟨"m2", "p2"⟩⟩]

/-- Counterexample for C5: storing a second batch does not replace the
store's retrievable contents — after two runs the first run's batch is
still retrievable through its session id, while the parameterless getter
returns the most recent batch. -/
theorem claim_C5_counterexample :
    getEmailResults
        (storeEmailResults (storeEmailResults [] "s1" batchOne) "s2" batchTwo)
        none = batchTwo
    ∧ getEmailResults
        (storeEmailResults (storeEmailResults [] "s1" batchOne) "s2" batchTwo)
        (some "s1") = batchOne
    ∧ batchOne ≠ batchTwo ∧ batchOne ≠ [] :=
  ⟨rfl, rfl, by decide, by decide⟩

/-- C5 (amended): storing a batch under a fresh session id appends a new
entry: the parameterless `getEmailResults` then returns exactly that batch,
but batches of earlier runs are not discarded — each remains retrievable
under its own session id exactly as before the store. -/
theorem claim_C5_store_append_latest (st : ResultStore) (sid : String)
    (b : List EmailResult)
    (hfresh : st.find? (fun p => p.1 == sid) = none) :
    getEmailResults (storeEmailResults st sid b) none = b
    ∧ ∀ sid', sid' ≠ sid →
        getEmailResults (storeEmailResults st sid b) (some sid') =
          getEmailResults st (some sid') := by
  have hall := List.find?_eq_none.mp hfresh
  have hany : st.any (fun p => p.1 == sid) = false := by
    rw [List.any_eq_false]
    intro x hx
    exact hall x hx
  constructor
  · simp [getEmailResults, storeEmailResults, mapSet, hany]
  · intro sid' hne
    have hss : ¬sid = sid' := fun h => hne (Eq.symm h)
    have hbf : (sid == sid') = false := by simpa using hss
    have hone : ([((sid, b))] : ResultStore).find? (fun p => p.1 == sid') =
        none := by
      simp [List.find?, hbf]
    simp [getEmailResults, storeEmailResults, mapSet, hany,
      List.find?_append, hone]

/-- Witness for C5 (amended): after storing a second batch under a fresh
id, the parameterless getter returns the new batch and the first batch is
still retrieved unchanged under its id. -/
theorem claim_C5_witness :
    getEmailResults (storeEmailResults [("s1", batchOne)] "s2" batchTwo)
        none = batchTwo
    ∧ getEmailResults (storeEmailResults [("s1", batchOne)] "s2" batchTwo)
        (some "s1") = getEmailResults [("s1", batchOne)] (some "s1") :=
  ⟨(claim_C5_store_append_latest [("s1", batchOne)] "s2" batchTwo
      (by decide)).1,
   (claim_C5_store_append_latest [("s1", batchOne)] "s2" batchTwo
      (by decide)).2 "s1" (by decide)⟩
